import Mathlib

/-!
Verification of the marmite static site generator (`src/main.rs`).

The program reads markdown files, splits an optional frontmatter block from
the body (`parse_front_matter`), resolves derived fields
(`get_title`, `get_slug`, `get_date`, `get_tags`, `get_show_in_menu`),
classifies each file as a post (dated) or page (undated) (`process_file`),
sorts posts by descending date and pages by descending title (`main`,
lines 30-33), and writes one `{slug}.html` per item (`render_templates`).

This file is a shallow embedding of that pipeline.  External collaborators
(the `frontmatter_gen::extract` function and the comrak markdown renderer)
are passed as function parameters; the `chrono` date parsers and the `std`
path helpers are modelled after their documented behaviour on the format
strings the program uses.  All text manipulation is done over `List Char`
so that every definition evaluates inside the kernel.
-/

/-- Frontmatter values, modelling the `frontmatter_gen::Value` variants this
program can receive from YAML frontmatter: strings, integers, booleans and
arrays. -/
inductive Value where
  | str (s : String)
  | num (n : Int)
  | bool (b : Bool)
  | arr (elems : List Value)

/-- Models `Value::as_str`: `Some` exactly for the string variant. -/
def Value.as_str : Value → Option String
  | .str s => some s
  | _ => none

/-- Models `Value::as_bool`: `Some` exactly for the boolean variant. -/
def Value.as_bool : Value → Option Bool
  | .bool b => some b
  | _ => none

/-- Models `Value::to_string_representation`, used only in the date error
message: the raw, unquoted form of the value.  Only the string case is ever
reached by the program (a non-string `date` panics before the message is
built), so the other cases reuse the raw scalar text. -/
def Value.to_string_representation : Value → String
  | .str s => s
  | .num n => ToString.toString n
  | .bool b => cond b "true" "false"
  | .arr _ => "[...]"

/-- Models the Rust `Display`/`to_string` of a frontmatter value, with
string values quoted — `get_tags` relies on this by trimming the quotes
back off. -/
def Value.display : Value → String
  | .str s => "\"" ++ s ++ "\""
  | .num n => ToString.toString n
  | .bool b => cond b "true" "false"
  | .arr elems =>
      "[" ++ String.intercalate ", " (elems.attach.map (fun x => Value.display x.1)) ++ "]"
decreasing_by
  have := List.sizeOf_lt_of_mem x.2
  simp only [Value.arr.sizeOf_spec]
  omega

/-- A frontmatter mapping, modelling `frontmatter_gen::Frontmatter`:
an association list of keys to values. -/
def Frontmatter := List (String × Value)

/-- Models `Frontmatter::get`. -/
def Frontmatter.get (fm : Frontmatter) (key : String) : Option Value :=
  (List.find? (fun p => p.1 == key) fm).map (fun p => p.2)

/-- Models `Frontmatter::new()`: the empty mapping. -/
def Frontmatter.empty : Frontmatter := []

/-- Result of running a fallible step of the program:
normal return, `process::exit(code)` after printing `msg`, or a Rust panic
(from `unwrap`). -/
inductive Outcome (α : Type) where
  | ok (val : α)
  | exit (msg : String) (code : Nat)
  | panic (msg : String)

/-! ### Character-list utilities (kernel-computable replacements for the
Rust `str` methods the program uses) -/

/-- Read exactly `n` decimal digits, accumulating their value onto `acc`;
`none` if a non-digit (or end of input) is hit first. -/
def readDigits : Nat → Nat → List Char → Option (Nat × List Char)
  | 0, acc, cs => some (acc, cs)
  | n + 1, acc, c :: cs =>
      if c.isDigit then readDigits n (acc * 10 + (c.toNat - 48)) cs else none
  | _ + 1, _, [] => none

/-- Consume one expected character. -/
def expectChar (ch : Char) : List Char → Option (List Char)
  | c :: cs => if c = ch then some cs else none
  | [] => none

/-- Split on a separator character; models Rust `str::split(char)`
(the empty string yields one empty segment). -/
def splitOnChar (sep : Char) : List Char → List (List Char)
  | [] => [[]]
  | c :: cs =>
      let r := splitOnChar sep cs
      if c = sep then [] :: r
      else
        match r with
        | g :: gs => (c :: g) :: gs
        | [] => [[c]]

/-- Trim ASCII whitespace from both ends; models Rust `str::trim` on the
whitespace characters that can occur in the inputs of this program. -/
def trimChars (cs : List Char) : List Char :=
  ((cs.dropWhile Char.isWhitespace).reverse.dropWhile Char.isWhitespace).reverse

/-- Models Rust `str::trim_matches('"')`: strip all leading and trailing
double quotes. -/
def trimQuotes (cs : List Char) : List Char :=
  ((cs.dropWhile (fun c => c = '"')).reverse.dropWhile (fun c => c = '"')).reverse

/-- Does `pat` occur at the front of `text`? -/
def matchesAt : List Char → List Char → Bool
  | [], _ => true
  | _ :: _, [] => false
  | p :: ps, c :: cs => p = c && matchesAt ps cs

/-- Does `pat` occur anywhere in `text` (contiguously)?  Used to state that a
diagnostic message names the offending value and file. -/
def containsSlice (pat : List Char) : List Char → Bool
  | [] => matchesAt pat []
  | c :: cs => matchesAt pat (c :: cs) || containsSlice pat cs

/-! ### Dates: model of the `chrono` parsers for the three format strings
used by `get_date` -/

/-- A parsed calendar date-time, standing in for `chrono::NaiveDateTime`. -/
structure DateTime where
  year : Nat
  month : Nat
  day : Nat
  hour : Nat
  minute : Nat
  second : Nat
deriving DecidableEq

/-- Gregorian leap year test. -/
def isLeapYear (y : Nat) : Bool :=
  (y % 4 = 0 && y % 100 ≠ 0) || y % 400 = 0

/-- Length of a month in the proleptic Gregorian calendar. -/
def daysInMonth (y m : Nat) : Nat :=
  if m = 2 then (if isLeapYear y then 29 else 28)
  else if m = 4 || m = 6 || m = 9 || m = 11 then 30
  else 31

/-- Calendar validity of a year/month/day triple. -/
def validYmd (y m d : Nat) : Bool :=
  1 ≤ m && m ≤ 12 && 1 ≤ d && d ≤ daysInMonth y m

/-- Validity of the time components; the `chrono` specifier `%S` accepts `60` for leap
seconds. -/
def validHms (h mi s : Nat) : Bool :=
  h < 24 && mi < 60 && s ≤ 60

/-- Parse `YYYY-MM-DD` (four-digit year, two-digit month and day, as in the
format strings `%Y-%m-%d ...` that `get_date` passes to `chrono`), returning
the remaining input. -/
def readYmd (cs : List Char) : Option (Nat × Nat × Nat × List Char) :=
  match readDigits 4 0 cs with
  | none => none
  | some (y, cs1) =>
    match expectChar '-' cs1 with
    | none => none
    | some cs2 =>
      match readDigits 2 0 cs2 with
      | none => none
      | some (m, cs3) =>
        match expectChar '-' cs3 with
        | none => none
        | some cs4 =>
          match readDigits 2 0 cs4 with
          | none => none
          | some (d, cs5) => some (y, m, d, cs5)

/-- Parse `HH:MM`, returning the remaining input. -/
def readHm (cs : List Char) : Option (Nat × Nat × List Char) :=
  match readDigits 2 0 cs with
  | none => none
  | some (h, cs1) =>
    match expectChar ':' cs1 with
    | none => none
    | some cs2 =>
      match readDigits 2 0 cs2 with
      | none => none
      | some (mi, cs3) => some (h, mi, cs3)

/-- Models `NaiveDateTime::parse_from_str(s, "%Y-%m-%d %H:%M:%S")`:
the whole input must be consumed and the components must form a valid
date-time. -/
def parseDateTimeSec (s : String) : Option DateTime :=
  match readYmd s.toList with
  | none => none
  | some (y, m, d, cs) =>
    match expectChar ' ' cs with
    | none => none
    | some cs1 =>
      match readHm cs1 with
      | none => none
      | some (h, mi, cs2) =>
        match expectChar ':' cs2 with
        | none => none
        | some cs3 =>
          match readDigits 2 0 cs3 with
          | none => none
          | some (sec, cs4) =>
            if cs4 = [] && validYmd y m d && validHms h mi sec then
              some ⟨y, m, d, h, mi, sec⟩
            else none

/-- Models `NaiveDateTime::parse_from_str(s, "%Y-%m-%d %H:%M")`. -/
def parseDateTimeMin (s : String) : Option DateTime :=
  match readYmd s.toList with
  | none => none
  | some (y, m, d, cs) =>
    match expectChar ' ' cs with
    | none => none
    | some cs1 =>
      match readHm cs1 with
      | none => none
      | some (h, mi, cs2) =>
        if cs2 = [] && validYmd y m d && validHms h mi 0 then
          some ⟨y, m, d, h, mi, 0⟩
        else none

/-- Models `NaiveDate::parse_from_str(s, "%Y-%m-%d")` followed by
`.and_hms_opt(0, 0, 0)` (which always succeeds): a bare date at midnight. -/
def parseDateOnly (s : String) : Option DateTime :=
  match readYmd s.toList with
  | none => none
  | some (y, m, d, cs) =>
    if cs = [] && validYmd y m d then some ⟨y, m, d, 0, 0, 0⟩ else none

/-- Models `get_date` (main.rs lines 127-150).  The `date` value is
converted with `as_str().unwrap()` — a panic for non-string values — before
any format is tried; then the three formats are tried in order; a string
matching none of them prints the diagnostic and exits with code 1; an absent
key yields `None`. -/
def get_date (fm : Frontmatter) (path : String) : Outcome (Option DateTime) :=
  match fm.get "date" with
  | none => .ok none
  | some input =>
    match input.as_str with
    | none => .panic "called Option::unwrap on a None value"
    | some s =>
      match parseDateTimeSec s with
      | some date => .ok (some date)
      | none =>
        match parseDateTimeMin s with
        | some date => .ok (some date)
        | none =>
          match parseDateOnly s with
          | some date => .ok (some date)
          | none =>
            .exit ("ERROR: Invalid date format " ++ input.to_string_representation
              ++ " when parsing " ++ path) 1

/-! ### Path helpers: model of `std::path::Path::file_stem` / `extension`
for the paths this program walks -/

/-- The final component of a path (Rust `Path::file_name`): the last
nonempty `/`-separated segment. -/
def file_name (p : String) : Option (List Char) :=
  ((splitOnChar '/' p.toList).filter (fun c => !c.isEmpty)).getLast?

/-- Split a file name around its last dot: `some (before, after)`, or `none`
when it has no dot. -/
def splitAtLastDot : List Char → Option (List Char × List Char)
  | [] => none
  | c :: cs =>
      match splitAtLastDot cs with
      | some (b, a) => some (c :: b, a)
      | none => if c = '.' then some ([], cs) else none

/-- Models `Path::file_stem`: the file name up to its last dot; the whole
name when there is no dot or the only dot leads the name (dotfiles). -/
def file_stem (p : String) : Option (List Char) :=
  match file_name p with
  | none => none
  | some f =>
      match splitAtLastDot f with
      | none => some f
      | some ([], _) => some f
      | some (c :: b, _) => some (c :: b)

/-- Models `Path::extension`: what follows the last dot of the file name,
provided that dot is not the leading character. -/
def pathExtension (p : String) : Option (List Char) :=
  match file_name p with
  | none => none
  | some f =>
      match splitAtLastDot f with
      | none => none
      | some ([], _) => none
      | some (_ :: _, ext) => some ext

/-! ### The remaining field resolvers -/

/-- Models `get_slug` (main.rs lines 152-161): the metadata `slug` when it
is a string, otherwise the file stem of the path (whose absence panics, via
`unwrap`). -/
def get_slug (fm : Frontmatter) (path : String) : Outcome String :=
  match fm.get "slug" with
  | some (.str slug) => .ok slug
  | _ =>
      match file_stem path with
      | some stem => .ok (String.mk stem)
      | none => .panic "called Option::unwrap on a None value"

/-- The first line of a string, as Rust `str::lines().next()`: `none` for
the empty string; otherwise everything before the first newline, with one
trailing carriage return stripped. -/
def firstLine (s : String) : Option String :=
  match s.toList with
  | [] => none
  | cs =>
      some (String.mk (
        match (cs.takeWhile (fun c => c ≠ '\n')).reverse with
        | '\r' :: rest => rest.reverse
        | other => other.reverse))

/-- Models `get_title` (main.rs lines 163-174): the metadata `title` when it
is a string; otherwise the first line of the `html` argument with leading
`#` characters and surrounding whitespace trimmed (empty input gives "").
NOTE: despite the parameter name, `process_file` (line 98) passes the raw
markdown body here, not the rendered HTML. -/
def get_title (fm : Frontmatter) (html : String) : String :=
  match fm.get "title" with
  | some (.str t) => t
  | _ =>
      String.mk (trimChars
        ((((firstLine html).getD "").toList).dropWhile (fun c => c = '#')))

/-- Models `get_tags` (main.rs lines 176-191): an array value maps each
element through its display form and trims surrounding quotes; a string
value is split on commas with each segment trimmed; anything else yields no
tags. -/
def get_tags (fm : Frontmatter) : List String :=
  match fm.get "tags" with
  | some (.arr tags) => tags.map (fun v => String.mk (trimQuotes v.display.toList))
  | some (.str tags) => (splitOnChar ',' tags.toList).map (fun t => String.mk (trimChars t))
  | _ => []

/-- Models `get_show_in_menu` (main.rs lines 120-125): the metadata value
coerced to boolean by `as_bool().unwrap()` (a panic when not a boolean);
`false` when absent. -/
def get_show_in_menu (fm : Frontmatter) : Outcome Bool :=
  match fm.get "show_in_menu" with
  | some v =>
      match v.as_bool with
      | some b => .ok b
      | none => .panic "called Option::unwrap on a None value"
  | none => .ok false

/-! ### Frontmatter extraction and per-file processing -/

/-- Models `content.starts_with("---")`: three dashes at the very start. -/
def startsWithDashes (s : String) : Bool :=
  match s.toList with
  | '-' :: '-' :: '-' :: _ => true
  | _ => false

/-- Models `parse_front_matter` (main.rs lines 82-90).  `extract` stands for
the external `frontmatter_gen::extract`, whose result is `unwrap`ped — a
parse failure is a panic.  Text without the leading marker gets an empty
frontmatter and is returned whole. -/
def parse_front_matter (extract : String → Except String (Frontmatter × String))
    (content : String) : Outcome (Frontmatter × String) :=
  if startsWithDashes content then
    match extract content with
    | .ok r => .ok r
    | .error e => .panic e
  else
    .ok (Frontmatter.empty, content)

/-- One content record (main.rs lines 55-64). -/
structure Content where
  title : String
  slug : String
  html : String
  tags : List String
  date : Option DateTime
  show_in_menu : Bool
deriving DecidableEq

/-- The aggregate built during the walk (main.rs lines 66-70); the site
configuration plays no role in the claims and is omitted. -/
structure SiteData where
  posts : List Content
  pages : List Content
deriving DecidableEq

/-- Models `process_file` (main.rs lines 92-118).  `extract` and
`markdown_to_html` stand for the external frontmatter extractor and the
comrak renderer; `file_content` is the text read from `path`.  The record
goes to `posts` when the resolved date is present, else to `pages`. -/
def process_file (extract : String → Except String (Frontmatter × String))
    (markdown_to_html : String → String)
    (path : String) (file_content : String) (site_data : SiteData) : Outcome SiteData :=
  match parse_front_matter extract file_content with
  | .exit m c => .exit m c
  | .panic m => .panic m
  | .ok (frontmatter, markdown) =>
    let html := markdown_to_html markdown
    let title := get_title frontmatter markdown
    let tags := get_tags frontmatter
    match get_slug frontmatter path with
    | .exit m c => .exit m c
    | .panic m => .panic m
    | .ok slug =>
      match get_date frontmatter path with
      | .exit m c => .exit m c
      | .panic m => .panic m
      | .ok date =>
        match get_show_in_menu frontmatter with
        | .exit m c => .exit m c
        | .panic m => .panic m
        | .ok show_in_menu =>
          let content : Content :=
            { title := title, slug := slug, html := html, tags := tags,
              date := date, show_in_menu := show_in_menu }
          if date.isSome then
            .ok { site_data with posts := site_data.posts ++ [content] }
          else
            .ok { site_data with pages := site_data.pages ++ [content] }

/-! ### Aggregation-phase sorting (main.rs lines 30-33) and output names -/

/-- A mixed-radix key embedding a date-time into `Nat`; on component values
in calendar range (month ≤ 12, day ≤ 31, hour < 24, minute < 60,
second ≤ 60 — all guaranteed by the parsers) its order is exactly the
lexicographic, i.e. chronological, order that the `chrono` `Ord` instance gives. -/
def DateTime.key (d : DateTime) : Nat :=
  d.second + 64 * (d.minute + 64 * (d.hour + 32 * (d.day + 32 * (d.month + 16 * d.year))))

/-- Date-time comparison, modelling `chrono::NaiveDateTime: Ord`. -/
def dtLe (a b : DateTime) : Bool := a.key ≤ b.key

/-- Comparison on optional dates, modelling the Rust `Ord` for `Option`
(`None` sorts before `Some`). -/
def optDateLe : Option DateTime → Option DateTime → Bool
  | none, _ => true
  | some _, none => false
  | some a, some b => dtLe a b

/-- The ordering realised by `posts.sort_by(|a, b| b.date.cmp(&a.date))`
(main.rs line 31): `a` may precede `b` when `b.date ≤ a.date`. -/
def postsLe (a b : Content) : Bool := optDateLe b.date a.date

/-- The ordering realised by `pages.sort_by(|a, b| b.title.cmp(&a.title))`
(main.rs line 33): `a` may precede `b` when `b.title ≤ a.title`.  The Lean
string order is codepoint-lexicographic, which coincides with the Rust
byte-lexicographic order on UTF-8. -/
def pagesLe (a b : Content) : Bool := decide (b.title ≤ a.title)

/-- The two sort statements of `main` (lines 30-33), modelled with a stable
merge sort as the Rust stable `sort_by`. -/
def sortSiteData (sd : SiteData) : SiteData :=
  { posts := sd.posts.mergeSort postsLe, pages := sd.pages.mergeSort pagesLe }

/-- The output file name used by `render_templates` (main.rs lines 211 and
222): `format!("{}.html", slug)`. -/
def outputFileName (c : Content) : String := c.slug ++ ".html"

/-! ### Title resolution as wired in `process_file`, and as the spec words it -/

/-- The title `process_file` actually computes for a file (main.rs line 98):
`get_title` applied to the RAW MARKDOWN body — even though the `get_title` parameter is named `html`, the rendered HTML is not what is passed. -/
def title_of_file (fm : Frontmatter) (markdown html : String) : String :=
  get_title fm markdown

/-- The title resolution as the spec words it ("the first line of the
rendered HTML"): the fallback of `get_title` applied to the rendered HTML
instead of the markdown body.  Kept only to compare against
`title_of_file`. -/
def title_of_file_as_specified (fm : Frontmatter) (markdown html : String) : String :=
  get_title fm html

/-! ### Concrete stand-ins for the external collaborators, used to
instantiate theorems at concrete inputs -/

/-- An extractor stand-in for runs on files without a frontmatter marker;
`parse_front_matter` never calls it on such files. -/
def extractUnused : String → Except String (Frontmatter × String) :=
  fun _ => .error "unused"

/-- An extractor stand-in returning a fixed successful extraction. -/
def extractConstOk : String → Except String (Frontmatter × String) :=
  fun _ => .ok ([("title", Value.str "T")], "body")

/-- An extractor stand-in returning a fixed parse failure. -/
def extractConstErr : String → Except String (Frontmatter × String) :=
  fun _ => .error "bad yaml"

/-- The extraction `frontmatter_gen::extract` performs on the file text
`"---\nslug: \"\"\n---\nbody\n"`: a frontmatter carrying an empty string
under `slug`, and the body `"body\n"`. -/
def extractEmptySlugFm : String → Except String (Frontmatter × String) :=
  fun _ => .ok ([("slug", Value.str "")], "body\n")

/-- A renderer stand-in that returns its input unchanged; used where the
rendered HTML plays no role in the property under test. -/
def markdownAsIs : String → String := fun s => s

/-- The comrak CommonMark rendering of the markdown body `"body\n"`, as a
constant function used at that single input. -/
def renderBodyHtml : String → String := fun _ => "<p>body</p>\n"

/-! ## Helper lemmas -/

theorem optDateLe_trans (a b c : Option DateTime) (h1 : optDateLe a b = true)
    (h2 : optDateLe b c = true) : optDateLe a c = true := by
  cases a <;> cases b <;> cases c <;> simp [optDateLe, dtLe] at * <;> omega

theorem optDateLe_total (a b : Option DateTime) : (optDateLe a b || optDateLe b a) = true := by
  cases a <;> cases b <;> simp [optDateLe, dtLe] <;> omega

theorem matchesAt_self_append (p r : List Char) : matchesAt p (p ++ r) = true := by
  induction p with
  | nil => rfl
  | cons c cs ih => simp [matchesAt, ih]

theorem containsSlice_nil_pat (l : List Char) : containsSlice [] l = true := by
  cases l <;> rfl

theorem containsSlice_middle (a b pat : List Char) :
    containsSlice pat (a ++ (pat ++ b)) = true := by
  induction a with
  | nil =>
    cases pat with
    | nil => exact containsSlice_nil_pat b
    | cons p ps =>
      have h : matchesAt (p :: ps) (p :: (ps ++ b)) = true := matchesAt_self_append (p :: ps) b
      simp [containsSlice, h]
  | cons c a ih => simp [containsSlice, ih]

theorem containsSlice_append_self (a pat : List Char) : containsSlice pat (a ++ pat) = true := by
  have h := containsSlice_middle a [] pat
  simpa using h

theorem Value.as_str_eq_some {v : Value} {s : String} (h : v.as_str = some s) :
    v = Value.str s := by
  cases v <;> simp [Value.as_str] at h <;> simp [h]

theorem String.mk_cons_ne_empty (c : Char) (b : List Char) : String.mk (c :: b) ≠ "" := by
  intro hcontra
  have h2 : (c :: b) = "".data := congrArg String.data hcontra
  rw [show "".data = [] from rfl] at h2
  exact List.noConfusion h2

/-! ## The claims -/

/-- Claim C1: the record of a processed content file goes to `posts` exactly when
its resolved date is present and to `pages` exactly when it is absent; never
to both, never to neither. -/
theorem process_file_classifies_by_date
    (extract : String → Except String (Frontmatter × String))
    (markdown_to_html : String → String)
    (path file_content : String) (sd sd' : SiteData)
    (h : process_file extract markdown_to_html path file_content sd = .ok sd') :
    ∃ c : Content,
      (c.date.isSome = true ∧ sd'.posts = sd.posts ++ [c] ∧ sd'.pages = sd.pages) ∨
      (c.date = none ∧ sd'.pages = sd.pages ++ [c] ∧ sd'.posts = sd.posts) := by
  unfold process_file at h
  repeat' split at h
  all_goals first
    | exact Outcome.noConfusion h
    | · injection h with h
        subst h
        exact ⟨_, Or.inl ⟨by assumption, rfl, rfl⟩⟩
    | · injection h with h
        subst h
        rename_i hcond
        exact ⟨_, Or.inr ⟨Option.not_isSome_iff_eq_none.mp hcond, rfl, rfl⟩⟩

/-- Claim C1, witness: a dateless file lands in `pages`. -/
theorem process_file_classifies_by_date_witness :
    ∃ c : Content,
      (c.date.isSome = true ∧
        (⟨[], [⟨"hello", "notes", "hello", [], none, false⟩]⟩ : SiteData).posts =
          (⟨[], []⟩ : SiteData).posts ++ [c] ∧
        (⟨[], [⟨"hello", "notes", "hello", [], none, false⟩]⟩ : SiteData).pages =
          (⟨[], []⟩ : SiteData).pages) ∨
      (c.date = none ∧
        (⟨[], [⟨"hello", "notes", "hello", [], none, false⟩]⟩ : SiteData).pages =
          (⟨[], []⟩ : SiteData).pages ++ [c] ∧
        (⟨[], [⟨"hello", "notes", "hello", [], none, false⟩]⟩ : SiteData).posts =
          (⟨[], []⟩ : SiteData).posts) :=
  process_file_classifies_by_date extractUnused markdownAsIs "notes.md" "hello"
    ⟨[], []⟩ ⟨[], [⟨"hello", "notes", "hello", [], none, false⟩]⟩ rfl

/-- Claim C2: after the aggregation-phase sort, every pair of adjacent posts
(p1, p2) satisfies p1.date ≥ p2.date (dates descending). -/
theorem posts_sorted_by_descending_date (sd : SiteData) :
    List.Chain' (fun p1 p2 => optDateLe p2.date p1.date = true) (sortSiteData sd).posts := by
  have htrans : ∀ a b c : Content, postsLe a b = true → postsLe b c = true →
      postsLe a c = true :=
    fun a b c h1 h2 => optDateLe_trans c.date b.date a.date h2 h1
  have htotal : ∀ a b : Content, (postsLe a b || postsLe b a) = true :=
    fun a b => optDateLe_total b.date a.date
  exact (List.sorted_mergeSort htrans htotal sd.posts).chain'

/-- Claim C3: after the aggregation-phase sort, every pair of adjacent pages
(g1, g2) satisfies g1.title ≥ g2.title (titles descending, codepoint
order). -/
theorem pages_sorted_by_descending_title (sd : SiteData) :
    List.Chain' (fun g1 g2 => g2.title ≤ g1.title) (sortSiteData sd).pages := by
  have htrans : ∀ a b c : Content, pagesLe a b = true → pagesLe b c = true →
      pagesLe a c = true := by
    intro a b c h1 h2
    simp only [pagesLe, decide_eq_true_eq] at *
    exact le_trans h2 h1
  have htotal : ∀ a b : Content, (pagesLe a b || pagesLe b a) = true := by
    intro a b
    simp only [pagesLe, Bool.or_eq_true, decide_eq_true_eq]
    exact le_total b.title a.title
  have h := List.sorted_mergeSort htrans htotal sd.pages
  exact (h.imp (fun hab => of_decide_eq_true hab)).chain'

/-- Claim C4: date resolution tries `%Y-%m-%d %H:%M:%S`, then
`%Y-%m-%d %H:%M`, then `%Y-%m-%d` (midnight), in that order; an absent
`date` key is no-date, not an error; and EVERY string matching none of the
three formats exits with code 1 after a diagnostic containing the offending
value and the file path (instantiated at `"Jan 5 2024"`). -/
theorem get_date_format_rules :
    (∀ (fm : Frontmatter) (path : String), fm.get "date" = none →
      get_date fm path = .ok none) ∧
    (∀ (fm : Frontmatter) (s path : String) (d : DateTime),
      fm.get "date" = some (Value.str s) → parseDateTimeSec s = some d →
      get_date fm path = .ok (some d)) ∧
    (∀ (fm : Frontmatter) (s path : String) (d : DateTime),
      fm.get "date" = some (Value.str s) → parseDateTimeSec s = none →
      parseDateTimeMin s = some d → get_date fm path = .ok (some d)) ∧
    (∀ (fm : Frontmatter) (s path : String) (d : DateTime),
      fm.get "date" = some (Value.str s) → parseDateTimeSec s = none →
      parseDateTimeMin s = none → parseDateOnly s = some d →
      get_date fm path = .ok (some d) ∧ d.hour = 0 ∧ d.minute = 0 ∧ d.second = 0) ∧
    (∀ (fm : Frontmatter) (s path : String),
      fm.get "date" = some (Value.str s) → parseDateTimeSec s = none →
      parseDateTimeMin s = none → parseDateOnly s = none →
      get_date fm path =
        .exit ("ERROR: Invalid date format " ++ s ++ " when parsing " ++ path) 1 ∧
      containsSlice s.toList
        ("ERROR: Invalid date format " ++ s ++ " when parsing " ++ path).toList = true ∧
      containsSlice path.toList
        ("ERROR: Invalid date format " ++ s ++ " when parsing " ++ path).toList = true) ∧
    (∀ path, get_date [("date", Value.str "2024-01-05 10:30:00")] path =
      .ok (some ⟨2024, 1, 5, 10, 30, 0⟩)) ∧
    (∀ path, get_date [("date", Value.str "2024-01-05 10:30")] path =
      .ok (some ⟨2024, 1, 5, 10, 30, 0⟩)) ∧
    (∀ path, get_date [("date", Value.str "2024-01-05")] path =
      .ok (some ⟨2024, 1, 5, 0, 0, 0⟩)) ∧
    (get_date [("date", Value.str "Jan 5 2024")] "posts/bad.md" =
      .exit "ERROR: Invalid date format Jan 5 2024 when parsing posts/bad.md" 1 ∧
      containsSlice "Jan 5 2024".toList
        "ERROR: Invalid date format Jan 5 2024 when parsing posts/bad.md".toList = true ∧
      containsSlice "posts/bad.md".toList
        "ERROR: Invalid date format Jan 5 2024 when parsing posts/bad.md".toList = true) := by
  refine ⟨?_, ?_, ?_, ?_, ?_, fun path => rfl, fun path => rfl, fun path => rfl, rfl,
    by decide, by decide⟩
  · intro fm path h
    simp [get_date, h]
  · intro fm s path d hget hp
    simp [get_date, hget, Value.as_str, hp]
  · intro fm s path d hget hp1 hp2
    simp [get_date, hget, Value.as_str, hp1, hp2]
  · intro fm s path d hget hp1 hp2 hp3
    refine ⟨by simp [get_date, hget, Value.as_str, hp1, hp2, hp3], ?_⟩
    unfold parseDateOnly at hp3
    split at hp3
    · exact Option.noConfusion hp3
    · split at hp3
      · injection hp3 with hp3
        subst hp3
        exact ⟨rfl, rfl, rfl⟩
      · exact Option.noConfusion hp3
  · intro fm s path hget hp1 hp2 hp3
    refine ⟨by simp [get_date, hget, Value.as_str, Value.to_string_representation,
      hp1, hp2, hp3], ?_, ?_⟩
    · have hsplit : ("ERROR: Invalid date format " ++ s ++ " when parsing " ++ path).toList
          = "ERROR: Invalid date format ".toList ++
            (s.toList ++ (" when parsing ".toList ++ path.toList)) := by
        simp [String.toList]
      rw [hsplit]
      exact containsSlice_middle _ _ _
    · have hsplit : ("ERROR: Invalid date format " ++ s ++ " when parsing " ++ path).toList
          = ("ERROR: Invalid date format ".toList ++
              (s.toList ++ " when parsing ".toList)) ++ path.toList := by
        simp [String.toList]
      rw [hsplit]
      exact containsSlice_append_self _ _

/-- Claim C4, witness: the three valid formats and the absent key, at
concrete inputs. -/
theorem get_date_format_rules_witness :
    get_date Frontmatter.empty "x.md" = .ok none ∧
    get_date [("date", Value.str "2024-01-05 10:30:00")] "x.md" =
      .ok (some ⟨2024, 1, 5, 10, 30, 0⟩) ∧
    get_date [("date", Value.str "2024-01-05 10:30")] "x.md" =
      .ok (some ⟨2024, 1, 5, 10, 30, 0⟩) ∧
    (get_date [("date", Value.str "2024-01-05")] "x.md" = .ok (some ⟨2024, 1, 5, 0, 0, 0⟩) ∧
      (⟨2024, 1, 5, 0, 0, 0⟩ : DateTime).hour = 0 ∧
      (⟨2024, 1, 5, 0, 0, 0⟩ : DateTime).minute = 0 ∧
      (⟨2024, 1, 5, 0, 0, 0⟩ : DateTime).second = 0) ∧
    (get_date [("date", Value.str "Jan 5 2024")] "posts/bad.md" =
        .exit ("ERROR: Invalid date format " ++ "Jan 5 2024" ++ " when parsing "
          ++ "posts/bad.md") 1 ∧
      containsSlice "Jan 5 2024".toList
        ("ERROR: Invalid date format " ++ "Jan 5 2024" ++ " when parsing "
          ++ "posts/bad.md").toList = true ∧
      containsSlice "posts/bad.md".toList
        ("ERROR: Invalid date format " ++ "Jan 5 2024" ++ " when parsing "
          ++ "posts/bad.md").toList = true) :=
  ⟨get_date_format_rules.1 Frontmatter.empty "x.md" rfl,
   get_date_format_rules.2.1 [("date", Value.str "2024-01-05 10:30:00")]
     "2024-01-05 10:30:00" "x.md" ⟨2024, 1, 5, 10, 30, 0⟩ rfl (by decide),
   get_date_format_rules.2.2.1 [("date", Value.str "2024-01-05 10:30")]
     "2024-01-05 10:30" "x.md" ⟨2024, 1, 5, 10, 30, 0⟩ rfl (by decide) (by decide),
   get_date_format_rules.2.2.2.1 [("date", Value.str "2024-01-05")]
     "2024-01-05" "x.md" ⟨2024, 1, 5, 0, 0, 0⟩ rfl (by decide) (by decide) (by decide),
   get_date_format_rules.2.2.2.2.1 [("date", Value.str "Jan 5 2024")]
     "Jan 5 2024" "posts/bad.md" rfl (by decide) (by decide) (by decide)⟩

/-- Claim C5: frontmatter extraction: text beginning with the `---` marker
has the metadata block extracted (a successful extraction is returned as-is,
a malformed block is a hard error, i.e. a panic); any other text yields an
empty metadata object and the unchanged input as the body. -/
theorem parse_front_matter_rules
    (extract : String → Except String (Frontmatter × String)) (content : String) :
    (startsWithDashes content = false →
      parse_front_matter extract content = .ok (Frontmatter.empty, content)) ∧
    (∀ (fm : Frontmatter) (body : String), startsWithDashes content = true →
      extract content = .ok (fm, body) →
      parse_front_matter extract content = .ok (fm, body)) ∧
    (∀ e : String, startsWithDashes content = true → extract content = .error e →
      parse_front_matter extract content = .panic e) := by
  refine ⟨?_, ?_, ?_⟩
  · intro h
    simp [parse_front_matter, h]
  · intro fm body h hex
    simp [parse_front_matter, h, hex]
  · intro e h hex
    simp [parse_front_matter, h, hex]

/-- Claim C5, witness: both marker branches and the error branch, at
concrete inputs. -/
theorem parse_front_matter_rules_witness :
    parse_front_matter extractConstOk "no marker" = .ok (Frontmatter.empty, "no marker") ∧
    parse_front_matter extractConstOk "---\nx" = .ok ([("title", Value.str "T")], "body") ∧
    parse_front_matter extractConstErr "---\nx" = .panic "bad yaml" :=
  ⟨(parse_front_matter_rules extractConstOk "no marker").1 rfl,
   (parse_front_matter_rules extractConstOk "---\nx").2.1 [("title", Value.str "T")] "body" rfl rfl,
   (parse_front_matter_rules extractConstErr "---\nx").2.2 "bad yaml" rfl rfl⟩

/-- Claim C6: the slug is the metadata `slug` when that is a string, and the
base name of the file without extension otherwise; each item is written to
`{slug}.html`, so `slug: "about"` yields `about.html` and `notes.md` without
a slug yields `notes.html`. -/
theorem slug_resolution_round_trip :
    (∀ (fm : Frontmatter) (path s : String), fm.get "slug" = some (Value.str s) →
      get_slug fm path = .ok s) ∧
    (∀ (fm : Frontmatter) (path : String) (stem : List Char),
      (∀ s, fm.get "slug" ≠ some (Value.str s)) → file_stem path = some stem →
      get_slug fm path = .ok (String.mk stem)) ∧
    (∀ c : Content, c.slug = "about" → outputFileName c = "about.html") ∧
    (get_slug Frontmatter.empty "notes.md" = .ok "notes" ∧
      (∀ c : Content, c.slug = "notes" → outputFileName c = "notes.html")) := by
  refine ⟨?_, ?_, ?_, rfl, ?_⟩
  · intro fm path s h
    simp [get_slug, h]
  · intro fm path stem hno hstem
    rcases hfm : fm.get "slug" with _ | v
    · simp [get_slug, hfm, hstem]
    · cases v with
      | str s => exact absurd hfm (hno s)
      | num n => simp [get_slug, hfm, hstem]
      | bool b => simp [get_slug, hfm, hstem]
      | arr l => simp [get_slug, hfm, hstem]
  · intro c h
    simp [outputFileName, h]
  · intro c h
    simp [outputFileName, h]

/-- Claim C6, witness: slug from metadata, slug from the file stem of
`notes.md`, and both round-trip output names. -/
theorem slug_resolution_round_trip_witness :
    get_slug [("slug", Value.str "about")] "notes.md" = .ok "about" ∧
    get_slug Frontmatter.empty "notes.md" =
      .ok (String.mk ['n', 'o', 't', 'e', 's']) ∧
    outputFileName ⟨"t", "about", "h", [], none, false⟩ = "about.html" ∧
    outputFileName ⟨"t", "notes", "h", [], none, false⟩ = "notes.html" :=
  ⟨slug_resolution_round_trip.1 [("slug", Value.str "about")] "notes.md" "about" rfl,
   slug_resolution_round_trip.2.1 Frontmatter.empty "notes.md" ['n', 'o', 't', 'e', 's']
     (fun s h => Option.noConfusion h) rfl,
   slug_resolution_round_trip.2.2.1 ⟨"t", "about", "h", [], none, false⟩ rfl,
   slug_resolution_round_trip.2.2.2.2 ⟨"t", "notes", "h", [], none, false⟩ rfl⟩

/-- Claim C7, counterexample: the fallback title comes from the RAW MARKDOWN
body, not from the rendered HTML as the claim states.  For the file body
`"hello"`, whose comrak rendering is `"<p>hello</p>\n"`, the program computes title
`"hello"` while the wording of the claim would give `"<p>hello</p>"`. -/
theorem title_from_markdown_not_html_cex :
    title_of_file Frontmatter.empty "hello" "<p>hello</p>\n" = "hello" ∧
    title_of_file_as_specified Frontmatter.empty "hello" "<p>hello</p>\n" = "<p>hello</p>" ∧
    title_of_file Frontmatter.empty "hello" "<p>hello</p>\n" ≠
      title_of_file_as_specified Frontmatter.empty "hello" "<p>hello</p>\n" := by
  refine ⟨rfl, rfl, ?_⟩
  decide

/-- Claim C7 (amended): the title is the metadata `title` when that is a
string; otherwise the first line of the RAW MARKDOWN body with leading `#`
markers and surrounding whitespace stripped, the empty string when the body
has no lines; in particular a body starting `# Hello` titles as `Hello`. -/
theorem title_resolution :
    (∀ (fm : Frontmatter) (text t : String), fm.get "title" = some (Value.str t) →
      get_title fm text = t) ∧
    (∀ (fm : Frontmatter) (markdown html : String),
      (∀ t, fm.get "title" ≠ some (Value.str t)) →
      title_of_file fm markdown html =
        String.mk (trimChars
          ((((firstLine markdown).getD "").toList).dropWhile (fun c => c = '#')))) ∧
    (∀ html : String, title_of_file Frontmatter.empty "" html = "") ∧
    (∀ html : String, title_of_file Frontmatter.empty "# Hello" html = "Hello") := by
  refine ⟨?_, ?_, fun html => rfl, fun html => rfl⟩
  · intro fm text t h
    simp [get_title, h]
  · intro fm markdown html hno
    rcases hfm : fm.get "title" with _ | v
    · simp [title_of_file, get_title, hfm]
    · cases v with
      | str s => exact absurd hfm (hno s)
      | num n => simp [title_of_file, get_title, hfm]
      | bool b => simp [title_of_file, get_title, hfm]
      | arr l => simp [title_of_file, get_title, hfm]

/-- Claim C7, witness: metadata title wins; the fallback formula holds at a
concrete dateless file. -/
theorem title_resolution_witness :
    get_title [("title", Value.str "My Title")] "body" = "My Title" ∧
    title_of_file Frontmatter.empty "# Hello" "<h1>Hello</h1>\n" =
      String.mk (trimChars
        ((((firstLine "# Hello").getD "").toList).dropWhile (fun c => c = '#'))) :=
  ⟨title_resolution.1 [("title", Value.str "My Title")] "body" "My Title" rfl,
   title_resolution.2.1 Frontmatter.empty "# Hello" "<h1>Hello</h1>\n"
     (fun t h => Option.noConfusion h)⟩

/-- Claim C8: a `tags` array maps each element to its unquoted display
form in order; a `tags` string splits on commas with each segment trimmed;
an absent key gives no tags; `["a", "b"]` and `"a, b"` both give
`["a", "b"]`. -/
theorem tags_resolution :
    (∀ (fm : Frontmatter) (vs : List Value), fm.get "tags" = some (Value.arr vs) →
      get_tags fm = vs.map (fun v => String.mk (trimQuotes v.display.toList))) ∧
    (∀ (fm : Frontmatter) (s : String), fm.get "tags" = some (Value.str s) →
      get_tags fm = (splitOnChar ',' s.toList).map (fun t => String.mk (trimChars t))) ∧
    (∀ fm : Frontmatter, fm.get "tags" = none → get_tags fm = []) ∧
    (get_tags [("tags", Value.arr [Value.str "a", Value.str "b"])] = ["a", "b"]) ∧
    (get_tags [("tags", Value.str "a, b")] = ["a", "b"]) := by
  refine ⟨?_, ?_, ?_, ?_, by decide⟩
  · intro fm vs h
    simp [get_tags, h]
  · intro fm s h
    simp [get_tags, h]
  · intro fm h
    simp [get_tags, h]
  · simp [get_tags, Frontmatter.get, Value.display]
    constructor <;> decide

/-- Claim C8, witness: both general branches and the absent key, at concrete
inputs. -/
theorem tags_resolution_witness :
    get_tags [("tags", Value.arr [Value.str "a", Value.str "b"])] =
      [Value.str "a", Value.str "b"].map (fun v => String.mk (trimQuotes v.display.toList)) ∧
    get_tags [("tags", Value.str "a, b")] =
      (splitOnChar ',' "a, b".toList).map (fun t => String.mk (trimChars t)) ∧
    get_tags Frontmatter.empty = [] :=
  ⟨tags_resolution.1 [("tags", Value.arr [Value.str "a", Value.str "b"])]
     [Value.str "a", Value.str "b"] rfl,
   tags_resolution.2.1 [("tags", Value.str "a, b")] "a, b" rfl,
   tags_resolution.2.2.1 Frontmatter.empty rfl⟩

/-- Claim C9, counterexample: a metadata-supplied slug is used as-is, so the
pipeline can produce a `Content` with an empty slug: processing
`"---\nslug: \"\"\n---\nbody\n"` (whose extraction yields `slug = ""`)
produces a page record whose slug is the empty string. -/
theorem slug_empty_metadata_cex :
    process_file extractEmptySlugFm renderBodyHtml "notes.md"
        "---\nslug: \"\"\n---\nbody\n" ⟨[], []⟩ =
      .ok ⟨[], [{ title := "body", slug := "", html := "<p>body</p>\n", tags := [],
                  date := none, show_in_menu := false }]⟩ ∧
    ({ title := "body", slug := "", html := "<p>body</p>\n", tags := [],
       date := none, show_in_menu := false } : Content).slug = "" :=
  ⟨rfl, rfl⟩

/-- Claim C9 (amended): a metadata slug that is a string is used as-is (and
may be empty); when the slug falls back to the base name of the file, it is
non-empty for every path with extension `md` — the only paths `main`
processes. -/
theorem slug_fallback_nonempty :
    (∀ (fm : Frontmatter) (path s : String), fm.get "slug" = some (Value.str s) →
      get_slug fm path = .ok s) ∧
    (∀ (fm : Frontmatter) (path : String),
      (∀ s, fm.get "slug" ≠ some (Value.str s)) →
      pathExtension path = some ['m', 'd'] →
      ∃ st : String, get_slug fm path = .ok st ∧ st ≠ "") := by
  refine ⟨?_, ?_⟩
  · intro fm path s h
    simp [get_slug, h]
  · intro fm path hno hext
    unfold pathExtension at hext
    split at hext
    · exact Option.noConfusion hext
    rename_i f hf
    split at hext
    · exact Option.noConfusion hext
    · exact Option.noConfusion hext
    rename_i c b ext hsplit
    have hstem : file_stem path = some (c :: b) := by
      simp [file_stem, hf, hsplit]
    refine ⟨String.mk (c :: b), ?_, String.mk_cons_ne_empty c b⟩
    rcases hfm : fm.get "slug" with _ | v
    · simp [get_slug, hfm, hstem]
    · cases v with
      | str s => exact absurd hfm (hno s)
      | num n => simp [get_slug, hfm, hstem]
      | bool b => simp [get_slug, hfm, hstem]
      | arr l => simp [get_slug, hfm, hstem]

/-- Claim C9, witness: the fallback slug for `notes.md` is non-empty, and a
metadata slug is returned as-is. -/
theorem slug_fallback_nonempty_witness :
    get_slug [("slug", Value.str "about")] "x.md" = .ok "about" ∧
    ∃ st : String, get_slug Frontmatter.empty "notes.md" = .ok st ∧ st ≠ "" :=
  ⟨slug_fallback_nonempty.1 [("slug", Value.str "about")] "x.md" "about" rfl,
   slug_fallback_nonempty.2 Frontmatter.empty "notes.md"
     (fun s h => Option.noConfusion h) rfl⟩

/-- Claim C10: a present but non-string `date` panics in the
`as_str().unwrap()` conversion before any format is tried (so the diagnostic
is never printed), and the diagnostic-and-exit-1 path is reached only for a
string-valued `date` matching none of the three formats. -/
theorem get_date_panic_and_exit_paths :
    (∀ (fm : Frontmatter) (path : String) (v : Value), fm.get "date" = some v →
      v.as_str = none →
      get_date fm path = .panic "called Option::unwrap on a None value") ∧
    (∀ (fm : Frontmatter) (path msg : String) (code : Nat),
      get_date fm path = .exit msg code →
      ∃ s, fm.get "date" = some (Value.str s) ∧ parseDateTimeSec s = none ∧
        parseDateTimeMin s = none ∧ parseDateOnly s = none ∧ code = 1) := by
  refine ⟨?_, ?_⟩
  · intro fm path v hget hstr
    simp [get_date, hget, hstr]
  · intro fm path msg code h
    unfold get_date at h
    rcases hget : fm.get "date" with _ | v
    · rw [hget] at h
      exact Outcome.noConfusion h
    simp only [hget] at h
    rcases hs : v.as_str with _ | s <;> simp only [hs] at h
    · exact Outcome.noConfusion h
    rcases h1 : parseDateTimeSec s with _ | d <;> simp only [h1] at h
    case some => exact Outcome.noConfusion h
    rcases h2 : parseDateTimeMin s with _ | d <;> simp only [h2] at h
    case some => exact Outcome.noConfusion h
    rcases h3 : parseDateOnly s with _ | d <;> simp only [h3] at h
    case some => exact Outcome.noConfusion h
    injection h with hmsg hcode
    refine ⟨s, ?_, h1, h2, h3, hcode.symm⟩
    rw [Value.as_str_eq_some hs]

/-- Claim C10, witness: a numeric `date` panics; the concrete exit-1 run is
string-valued. -/
theorem get_date_panic_and_exit_paths_witness :
    get_date [("date", Value.num 2024)] "x.md" =
      .panic "called Option::unwrap on a None value" ∧
    ∃ s, Frontmatter.get [("date", Value.str "Jan 5 2024")] "date" =
        some (Value.str s) ∧ parseDateTimeSec s = none ∧ parseDateTimeMin s = none ∧
        parseDateOnly s = none ∧ (1 : Nat) = 1 :=
  ⟨get_date_panic_and_exit_paths.1 [("date", Value.num 2024)] "x.md" (Value.num 2024) rfl rfl,
   get_date_panic_and_exit_paths.2 [("date", Value.str "Jan 5 2024")] "posts/bad.md"
     "ERROR: Invalid date format Jan 5 2024 when parsing posts/bad.md" 1 rfl⟩
